import Mathlib

/-!
Shallow embedding of the Price Tracking & History Analytics Engine
(`utils/playwright_price_scraper.py`, `utils/db.py`, `utils/common.py`).

Python floats are idealised as rationals (ℚ): every operation the claims
touch is comparison, max, subtraction, division and decimal rounding, all
of which are exact on the concrete inputs used below.  Wall-clock
timestamps are modelled as natural numbers supplied by the caller.
-/

/-- Python `round(x, 2)` rounds half to even.  On ℚ: scale by 100, round
half to even to an integer, scale back. -/
def roundHalfEven (x : ℚ) : ℤ :=
  let f := ⌊x⌋
  let r := x - f
  if r < 1/2 then f
  else if 1/2 < r then f + 1
  else if f % 2 = 0 then f else f + 1

/-- Round a rational to 2 decimal places, half to even (Python `round(x, 2)`). -/
def round2 (x : ℚ) : ℚ := (roundHalfEven (x * 100) : ℚ) / 100

/-- The discount computation of `scrape_product`
(`playwright_price_scraper.py` lines 35-39):
`round(((original_price - current_price) / original_price) * 100, 2)` when
`original_price > current_price`, else `0`.  (When `original = 0` and
`current < 0` the Python expression raises `ZeroDivisionError`; ℚ division
by zero instead yields `0`, and no claim below touches that corner.) -/
def discountPercent (original current : ℚ) : ℚ :=
  if original > current then round2 ((original - current) / original * 100) else 0

/-- Bool test: `pat` is a prefix of `s` (character lists). -/
def charsPrefix : List Char → List Char → Bool
  | [], _ => true
  | _ :: _, [] => false
  | a :: as, b :: bs => a == b && charsPrefix as bs

/-- Bool test: `pat` occurs as a contiguous sublist of `s`. -/
def charsInfix (pat : List Char) : List Char → Bool
  | [] => charsPrefix pat []
  | b :: bs => charsPrefix pat (b :: bs) || charsInfix pat bs

/-- Python's substring test `pat in s` on strings. -/
def strContainsSub (s pat : String) : Bool := charsInfix pat.toList s.toList

/-- A tracked product row (`{name, url, platform, threshold}`). -/
structure Product where
  name : String
  url : String
  platform : String
  threshold : ℚ
deriving DecidableEq

/-- One row of the `price_history` table, as written by `save_price`.
Insertion order is list order (the AUTOINCREMENT id). -/
structure Obs where
  name : String
  url : String
  platform : String
  price : ℚ
  original_price : ℚ
  threshold : ℚ
  date : ℕ
deriving DecidableEq

/-- The `status` string of `scrape_product`, with the formatted difference
kept as a rational instead of text. -/
inductive ScrapeStatus where
  | thresholdAndDiscountMet
  | aboveThresholdBy (diff : ℚ)
  | noDiscount
deriving DecidableEq

/-- The dict returned by `scrape_product` on success. -/
structure ScrapeInfo where
  name : String
  url : String
  current_price : ℚ
  original_price : ℚ
  discount : ℚ
  threshold : ℚ
  status : ScrapeStatus
  send_email : Bool
deriving DecidableEq

/-- The tail of `scrape_product` (lines 35-62): discount, eligibility flag
`send_email = (current < original) and (current <= threshold)`, status, and
the result dict. -/
def mkScrapeInfo (p : Product) (current original : ℚ) : ScrapeInfo :=
  let discount := discountPercent original current
  let send_email := decide (current < original) && decide (current ≤ p.threshold)
  let status :=
    if send_email then ScrapeStatus.thresholdAndDiscountMet
    else if current > p.threshold then ScrapeStatus.aboveThresholdBy (current - p.threshold)
    else ScrapeStatus.noDiscount
  ⟨p.name, p.url, current, original, discount, p.threshold, status, send_email⟩

/-- `scrape_product` (lines 16-62).  The two per-site adapters are
parameters `amazonFetch`/`flipkartFetch` mapping a URL to
`(current_price, original_price)` or a not-found signal (`none`).  A URL
containing neither "amazon" nor "flipkart" falls through with the sentinel
initialisation `current_price, original_price = 10e9, 10e9`. -/
def scrape_product (amazonFetch flipkartFetch : String → Option (ℚ × ℚ))
    (p : Product) : Option ScrapeInfo :=
  if strContainsSub p.url "amazon" then
    match amazonFetch p.url with
    | none => none
    | some (c, o) => some (mkScrapeInfo p c o)
  else if strContainsSub p.url "flipkart" then
    match flipkartFetch p.url with
    | none => none
    | some (c, o) => some (mkScrapeInfo p c o)
  else
    some (mkScrapeInfo p 10000000000 10000000000)

/-- The `save_price` call inside `track_prices` (lines 98-105): the
observation row written for a successful scrape (`original_price` is passed
explicitly, so `save_price`'s inference branch is not taken). -/
def obsOf (now : ℕ) (p : Product) (info : ScrapeInfo) : Obs :=
  ⟨p.name, p.url, p.platform, info.current_price, info.original_price, p.threshold, now⟩

/-- The per-product loop of `track_prices` (lines 88-112).  CRUCIAL source
detail, line 71: `results = report_details = []` binds BOTH names to ONE
shared list, so `results.append(info)` and `report_details.append(info)`
append to the same list.  State is `(shared list, price_history table)`. -/
def runLoop (aF fF : String → Option (ℚ × ℚ)) (now : ℕ)
    (st : List ScrapeInfo × List Obs) : List Product → List ScrapeInfo × List Obs
  | [] => st
  | p :: rest =>
    match scrape_product aF fF p with
    | none => runLoop aF fF now st rest
    | some info =>
      let shared := st.1 ++ [info]
      let db := st.2 ++ [obsOf now p info]
      let shared :=
        if info.current_price < info.original_price ∧ info.current_price ≤ p.threshold
        then shared ++ [info] else shared
      runLoop aF fF now (shared, db) rest

/-- Observable outcome of one `track_prices` run. -/
structure RunResult where
  db : List Obs
  results : List ScrapeInfo
  eligible_reports : List ScrapeInfo
  notifier_calls : ℕ
deriving DecidableEq

/-- `track_prices` (lines 65-130), with the product list and the adapters
as parameters and `db0` the pre-existing `price_history` table.  After the
loop, `eligible_reports` filters the (shared) `report_details` list by the
eligibility predicate, and `send_report` is called once iff it is
non-empty. -/
def track_prices (now : ℕ) (aF fF : String → Option (ℚ × ℚ))
    (db0 : List Obs) (products : List Product) : RunResult :=
  if products.isEmpty then ⟨db0, [], [], 0⟩
  else
    let st := runLoop aF fF now ([], db0) products
    let eligible := st.1.filter
      (fun i => decide (i.current_price < i.original_price ∧ i.current_price ≤ i.threshold))
    ⟨st.2, st.1, eligible, if eligible.isEmpty then 0 else 1⟩

/-- Per-product contribution to the shared `results`/`report_details` list:
one copy for every success, a second copy when eligible. -/
def sharedContrib (aF fF : String → Option (ℚ × ℚ)) (p : Product) : List ScrapeInfo :=
  match scrape_product aF fF p with
  | none => []
  | some info =>
    if info.current_price < info.original_price ∧ info.current_price ≤ p.threshold
    then [info, info] else [info]

/-- Per-product contribution to the `price_history` table: one row per
successful scrape, none on failure. -/
def dbContrib (aF fF : String → Option (ℚ × ℚ)) (now : ℕ) (p : Product) : Option Obs :=
  (scrape_product aF fF p).map (obsOf now p)

theorem runLoop_eq (aF fF : String → Option (ℚ × ℚ)) (now : ℕ)
    (ps : List Product) (shared : List ScrapeInfo) (db : List Obs) :
    runLoop aF fF now (shared, db) ps =
      (shared ++ ps.flatMap (sharedContrib aF fF), db ++ ps.filterMap (dbContrib aF fF now)) := by
  induction ps generalizing shared db with
  | nil => simp [runLoop]
  | cons p rest ih =>
    simp only [runLoop, sharedContrib, dbContrib, List.flatMap_cons, List.filterMap_cons]
    cases h : scrape_product aF fF p with
    | none => simp [ih]
    | some info =>
      by_cases he : info.current_price < info.original_price ∧ info.current_price ≤ p.threshold
      · simp [he, ih, List.append_assoc, obsOf]
      · simp [he, ih, List.append_assoc, obsOf]

/-!  `utils/db.py` — the Price History Store.  -/

/-- `SELECT MAX(price)` over a list of prices (NULL on the empty set). -/
def sqlMax : List ℚ → Option ℚ
  | [] => none
  | x :: xs =>
    match sqlMax xs with
    | none => some x
    | some m => some (max x m)

/-- Prior prices recorded for `name` (the rows `WHERE name = ?`). -/
def priorPrices (db : List Obs) (name : String) : List ℚ :=
  (db.filter (fun o => o.name == name)).map Obs.price

/-- The `original_price` inference of `save_price` (`db.py` lines 48-53):
`max_price if max_price and max_price > price else price`.  Python
truthiness makes a `max_price` of `0` (and NULL) fall to `price`. -/
def savePriceInferredOriginal (db : List Obs) (name : String) (price : ℚ) : ℚ :=
  match sqlMax (priorPrices db name) with
  | none => price
  | some m => if m ≠ 0 ∧ m > price then m else price

/-- `save_price` (`db.py` lines 33-60): append one row; when the caller
passes no `original_price`, infer it from the history. -/
def save_price (db : List Obs) (name url platform : String)
    (price threshold : ℚ) (original_price : Option ℚ) (now : ℕ) : List Obs :=
  let orig :=
    match original_price with
    | none => savePriceInferredOriginal db name price
    | some o => o
  db ++ [⟨name, url, platform, price, orig, threshold, now⟩]

/-- All rows for one product name, in insertion (chronological) order. -/
def nameHistory (db : List Obs) (n : String) : List Obs :=
  db.filter (fun o => o.name == n)

/-- One summary entry of `get_product_summary`. -/
structure SummaryEntry where
  name : String
  url : String
  platform : String
  current_price : ℚ
  original_price : ℚ
  threshold : ℚ
  previous_price : Option ℚ
  price_change : Option ℚ
  price_change_percent : Option ℚ
  last_updated : ℕ
deriving DecidableEq

/-- The rows for `n` ordered by `date DESC` (the SQL `ORDER BY date DESC`;
ties cannot occur under the strictly-increasing-timestamp hypotheses used
below). -/
def byDateDesc (l : List Obs) : List Obs :=
  List.insertionSort (fun a b => b.date ≤ a.date) l

/-- The summary row `get_product_summary` (`db.py` lines 110-173) produces
for product `n`: the latest observation (`date = MAX(date)`, the head of
the date-descending order), `previous_price` from the correlated subquery
`ORDER BY date DESC LIMIT 1 OFFSET 1` (the second element), then the Python
post-processing — note `data.get('original_price') or current_price` and
`if previous_price:` treat `0` like NULL. -/
def summaryFor (db : List Obs) (n : String) : Option SummaryEntry :=
  match byDateDesc (nameHistory db n) with
  | [] => none
  | latest :: rest =>
    let current := latest.price
    let previous := rest.head?.map Obs.price
    let original := if latest.original_price = 0 then current else latest.original_price
    let pc :=
      match previous with
      | none => none
      | some p => if p = 0 then none else some (current - p)
    let pcp :=
      match previous with
      | none => none
      | some p => if p = 0 then none else some ((current - p) / p * 100)
    some ⟨n, latest.url, latest.platform, current, original, latest.threshold,
          previous, pc, pcp, latest.date⟩

/-- `get_product_summary`: one entry per distinct product name (ordered by
name, `ORDER BY ph1.name`). -/
def get_product_summary (db : List Obs) : List SummaryEntry :=
  (List.insertionSort (fun a b => a ≤ b) (db.map Obs.name).dedup).filterMap (summaryFor db)

theorem orderedInsert_of_forall_lt (a : Obs) (m : List Obs)
    (h : ∀ b ∈ m, a.date < b.date) :
    List.orderedInsert (fun x y => y.date ≤ x.date) a m = m ++ [a] := by
  induction m with
  | nil => simp [List.orderedInsert]
  | cons x xs ih =>
    have hx : a.date < x.date := h x (by simp)
    simp only [List.orderedInsert, List.cons_append]
    rw [if_neg (by omega), ih (fun b hb => h b (by simp [hb]))]

theorem byDateDesc_of_strictInc (l : List Obs)
    (h : l.Pairwise (fun a b => a.date < b.date)) :
    byDateDesc l = l.reverse := by
  induction l with
  | nil => simp [byDateDesc]
  | cons a t ih =>
    have ha : ∀ b ∈ t, a.date < b.date := (List.pairwise_cons.mp h).1
    have ht := (List.pairwise_cons.mp h).2
    simp only [byDateDesc, List.insertionSort] at *
    rw [ih ht, orderedInsert_of_forall_lt a t.reverse (fun b hb => ha b (List.mem_reverse.mp hb))]
    simp

/-!  `utils/common.py` — the product catalog reader.  -/

/-- One CSV row as seen by `csv.DictReader`; `none` stands for an absent
field (an absent column, an empty cell, or a short row's `None`, which all
lead to the same skip outcome here).  A present-but-`None` `platform` cell
would make the Python raise `AttributeError` into the outer catch-all; no
claim depends on that corner and the model folds it into `none ↦ ""`. -/
structure CsvRow where
  name : Option String
  url : Option String
  platform : Option String
  threshold : Option String
deriving DecidableEq

/-- Whitespace as Python `str.strip()` sees it (the ASCII cases). -/
def isPySpace (c : Char) : Bool :=
  c == ' ' || c == '\t' || c == '\n' || c == '\r' || c == '\x0b' || c == '\x0c'

/-- Python `str.strip()`. -/
def pyStrip (s : String) : String :=
  String.mk (((s.toList.dropWhile isPySpace).reverse.dropWhile isPySpace).reverse)

/-- Python `str.lower()` (ASCII case). -/
def pyLower (s : String) : String :=
  String.mk (s.toList.map Char.toLower)

/-- `re.sub(r'[^\d.]', '', s)`: keep only digits and the decimal point. -/
def cleanThreshold (s : String) : String :=
  String.mk (s.toList.filter (fun c => c.isDigit || c == '.'))

/-- Digit characters to a natural number (most significant first). -/
def digitsToNat (l : List Char) : ℕ :=
  l.foldl (fun n c => 10 * n + (c.toNat - 48)) 0

/-- Split a character list at every dot. -/
def splitOnDot : List Char → List (List Char)
  | [] => [[]]
  | c :: rest =>
    let r := splitOnDot rest
    if c == '.' then [] :: r
    else
      match r with
      | [] => [[c]]
      | h :: t => (c :: h) :: t

/-- Python `float(s)` restricted to strings of digits and at most one dot
(the only shape `cleanThreshold` can produce); `none` models `ValueError`.
Signs, exponents and `inf`/`nan` are unreachable after cleaning. -/
def parsePyFloat (s : String) : Option ℚ :=
  if s.toList.all (fun c => c.isDigit || c == '.') then
    match splitOnDot s.toList with
    | [intPart] =>
      if intPart.isEmpty then none else some (digitsToNat intPart : ℚ)
    | [intPart, fracPart] =>
      if intPart.isEmpty ∧ fracPart.isEmpty then none
      else some ((digitsToNat intPart : ℚ) +
        (digitsToNat fracPart : ℚ) / (10 : ℚ) ^ fracPart.length)
    | _ => none
  else none

/-- The per-row body of `fetch_products` (`common.py` lines 41-69): clean
and parse the threshold (a `ValueError` is caught and the row skipped),
then require non-empty `name` and `url`; a surviving row yields a
`Product`. -/
def parseProductRow (row : CsvRow) : Option Product :=
  let thresholdClean := cleanThreshold (pyStrip (row.threshold.getD ""))
  if thresholdClean = "" then none
  else
    match parsePyFloat thresholdClean with
    | none => none
    | some t =>
      if row.name.getD "" = "" ∨ row.url.getD "" = "" then none
      else some ⟨pyStrip (row.name.getD ""), pyStrip (row.url.getD ""),
                 pyStrip (pyLower (row.platform.getD "")), t⟩

/-- `fetch_products` (`common.py` lines 34-76), with the catalog file as a
parameter: `none` models `FileNotFoundError` (empty list), otherwise each
row is parsed and invalid rows are skipped. -/
def fetch_products (catalog : Option (List CsvRow)) : List Product :=
  match catalog with
  | none => []
  | some rows => rows.filterMap parseProductRow

/-!  Helper lemmas about the orchestrator and the summary.  -/

theorem track_prices_db (now : ℕ) (aF fF : String → Option (ℚ × ℚ))
    (db0 : List Obs) (ps : List Product) :
    (track_prices now aF fF db0 ps).db = db0 ++ ps.filterMap (dbContrib aF fF now) := by
  cases ps with
  | nil => simp [track_prices]
  | cons p rest => simp [track_prices, runLoop_eq]

theorem track_prices_eligible (now : ℕ) (aF fF : String → Option (ℚ × ℚ))
    (db0 : List Obs) (ps : List Product) :
    (track_prices now aF fF db0 ps).eligible_reports =
      (ps.flatMap (sharedContrib aF fF)).filter
        (fun i => decide (i.current_price < i.original_price ∧ i.current_price ≤ i.threshold)) := by
  cases ps with
  | nil => simp [track_prices]
  | cons p rest => simp [track_prices, runLoop_eq]

theorem roundHalfEven_nonneg (x : ℚ) (hx : 0 ≤ x) : 0 ≤ roundHalfEven x := by
  unfold roundHalfEven
  have hf : (0 : ℤ) ≤ ⌊x⌋ := Int.floor_nonneg.mpr hx
  dsimp only
  split_ifs <;> omega

theorem round2_nonneg (x : ℚ) (hx : 0 ≤ x) : 0 ≤ round2 x := by
  unfold round2
  have h := roundHalfEven_nonneg (x * 100) (mul_nonneg hx (by norm_num))
  exact div_nonneg (by exact_mod_cast h) (by norm_num)

theorem summaryFor_fields (db : List Obs) (n : String) (e : SummaryEntry)
    (hs : (nameHistory db n).Pairwise (fun a b => a.date < b.date))
    (he : summaryFor db n = some e) :
    ((nameHistory db n).getLast?).map Obs.price = some e.current_price
    ∧ e.previous_price = ((nameHistory db n).reverse[1]?).map Obs.price
    ∧ e.price_change = (match e.previous_price with
        | none => none
        | some p => if p = 0 then none else some (e.current_price - p))
    ∧ e.price_change_percent = (match e.previous_price with
        | none => none
        | some p => if p = 0 then none else some ((e.current_price - p) / p * 100)) := by
  have hb : byDateDesc (nameHistory db n) = (nameHistory db n).reverse :=
    byDateDesc_of_strictInc _ hs
  unfold summaryFor at he
  rw [hb] at he
  cases hr : (nameHistory db n).reverse with
  | nil => rw [hr] at he; simp at he
  | cons latest rest =>
    rw [hr] at he
    simp only [Option.some.injEq] at he
    subst he
    refine ⟨?_, ?_, rfl, rfl⟩
    · rw [← List.head?_reverse, hr]; rfl
    · cases rest <;> simp

/-!  Concrete fixtures used by witnesses and counterexamples.  -/

/-- An adapter stub that always reports "not found". -/
def noFetch : String → Option (ℚ × ℚ) := fun _ => none

/-- A product whose URL names neither amazon nor flipkart. -/
def prodX : Product := ⟨"X", "https://example.com/x", "other", 100⟩

/-- A product with an amazon URL and threshold 100. -/
def prodWidget : Product := ⟨"Widget", "https://amazon.example/widget", "amazon", 100⟩

/-- Adapter stub for `prodWidget`: current 50, original 100. -/
def widgetFetch : String → Option (ℚ × ℚ) :=
  fun u => if u = "https://amazon.example/widget" then some (50, 100) else none

def prodA9 : Product := ⟨"P1", "https://amazon.example/p1", "amazon", 100⟩

def prodB9 : Product := ⟨"P2", "https://amazon.example/p2", "amazon", 100⟩

def prodC9 : Product := ⟨"P3", "https://flipkart.example/p3", "flipkart", 200⟩

/-- Amazon adapter stub for the 3-product run: succeeds on P1, fails on P2. -/
def amazonFetch9 : String → Option (ℚ × ℚ) :=
  fun u => if u = "https://amazon.example/p1" then some (80, 100) else none

/-- Flipkart adapter stub for the 3-product run: succeeds on P3. -/
def flipkartFetch9 : String → Option (ℚ × ℚ) :=
  fun u => if u = "https://flipkart.example/p3" then some (150, 150) else none

/-- A history whose one prior observation for "A" has price 0. -/
def dbZeroPrior : List Obs := [⟨"A", "u", "amazon", 0, 0, 100, 1⟩]

/-- A history whose one prior observation for "B" has price 100. -/
def dbMaxPrior : List Obs := [⟨"B", "u", "amazon", 100, 100, 50, 1⟩]

/-- Two observations for "W": price 100 at time 1, then price 90 at time 2. -/
def dbTwoObs : List Obs :=
  [⟨"W", "u", "amazon", 100, 100, 50, 1⟩, ⟨"W", "u", "amazon", 90, 100, 50, 2⟩]

/-- Two observations for "Z": price 0 at time 1, then price 50 at time 2. -/
def dbZeroPrev : List Obs :=
  [⟨"Z", "u", "amazon", 0, 0, 100, 1⟩, ⟨"Z", "u", "amazon", 50, 50, 100, 2⟩]

/-!  Claim C1.  -/

/-- Claim C1, counterexample: a one-product run over a product whose URL
contains neither "amazon" nor "flipkart" DOES persist a PriceObservation
(with the sentinel price 10e9), contradicting the claim that no
observation is persisted for such a product; `scrape_product` does not
signal a failure for it. -/
theorem claim_C1_counterexample :
    (track_prices 0 noFetch noFetch [] [prodX]).db =
      [⟨"X", "https://example.com/x", "other", 10000000000, 10000000000, 100, 0⟩]
    ∧ scrape_product noFetch noFetch prodX =
        some (mkScrapeInfo prodX 10000000000 10000000000) :=
  ⟨rfl, rfl⟩

/-- Claim C1 (amended): a product with no registered site adapter is NOT
treated as a scrape failure: `scrape_product` falls through with the
sentinel prices 10e9/10e9, so a PriceObservation with price 10e9 IS
persisted; the product is marked non-eligible (`send_email = false`),
never reaches the final eligible-reports batch, and the run continues
with the remaining products. -/
theorem claim_C1 (now : ℕ) (aF fF : String → Option (ℚ × ℚ)) (db0 : List Obs)
    (p : Product) (rest : List Product)
    (h1 : strContainsSub p.url "amazon" = false)
    (h2 : strContainsSub p.url "flipkart" = false) :
    scrape_product aF fF p = some (mkScrapeInfo p 10000000000 10000000000)
    ∧ (mkScrapeInfo p 10000000000 10000000000).send_email = false
    ∧ (track_prices now aF fF db0 (p :: rest)).db =
        db0 ++ obsOf now p (mkScrapeInfo p 10000000000 10000000000)
          :: rest.filterMap (dbContrib aF fF now)
    ∧ (track_prices now aF fF db0 (p :: rest)).eligible_reports =
        (track_prices now aF fF db0 rest).eligible_reports := by
  have hsc : scrape_product aF fF p = some (mkScrapeInfo p 10000000000 10000000000) := by
    simp [scrape_product, h1, h2]
  have hineq : ¬ ((10000000000 : ℚ) < 10000000000) := lt_irrefl _
  refine ⟨hsc, rfl, ?_, ?_⟩
  · rw [track_prices_db]
    simp [dbContrib, hsc]
  · rw [track_prices_eligible, track_prices_eligible]
    simp only [List.flatMap_cons, List.filter_append]
    have hcontrib : sharedContrib aF fF p = [mkScrapeInfo p 10000000000 10000000000] := by
      simp [sharedContrib, hsc, mkScrapeInfo, hineq]
    rw [hcontrib]
    simp [mkScrapeInfo, hineq]

/-- Claim C1, witness: the amended theorem applied to the concrete
no-adapter product `prodX`. -/
theorem claim_C1_witness :
    scrape_product noFetch noFetch prodX =
      some (mkScrapeInfo prodX 10000000000 10000000000)
    ∧ (mkScrapeInfo prodX 10000000000 10000000000).send_email = false
    ∧ (track_prices 0 noFetch noFetch [] (prodX :: [])).db =
        [] ++ obsOf 0 prodX (mkScrapeInfo prodX 10000000000 10000000000)
          :: List.filterMap (dbContrib noFetch noFetch 0) []
    ∧ (track_prices 0 noFetch noFetch [] (prodX :: [])).eligible_reports =
        (track_prices 0 noFetch noFetch [] []).eligible_reports :=
  claim_C1 0 noFetch noFetch [] prodX [] rfl rfl

/-!  Claim C2.  -/

/-- Claim C2, failing-input evaluation: one eligible product (current 50 <
original 100, 50 <= threshold 100) produces an eligible-reports batch with
the SAME product TWICE — `results = report_details = []` aliases the two
lists — while the claim (and the spec) say the batch holds one entry per
eligible product.  `send_report` is still called exactly once. -/
theorem claim_C2_duplicate_batch :
    (track_prices 0 widgetFetch noFetch [] [prodWidget]).eligible_reports =
      [mkScrapeInfo prodWidget 50 100, mkScrapeInfo prodWidget 50 100]
    ∧ (track_prices 0 widgetFetch noFetch [] [prodWidget]).notifier_calls = 1 :=
  ⟨rfl, rfl⟩

/-!  Claim C3.  -/

/-- Claim C3, counterexample: with one prior observation of price 0 for
"A", recording price -1 without an override stores `originalPrice = -1`,
not `max(0, -1) = 0` as the claim requires — the Python truthiness test
`max_price and max_price > price` treats the prior maximum 0 as absent. -/
theorem claim_C3_counterexample :
    save_price dbZeroPrior "A" "u" "amazon" (-1) 100 none 2 =
      dbZeroPrior ++ [⟨"A", "u", "amazon", -1, -1, 100, 2⟩]
    ∧ max (0 : ℚ) (-1) = 0
    ∧ ((-1 : ℚ) = 0 → False) :=
  ⟨rfl, by decide, by decide⟩

/-- Claim C3 (amended): `save_price` without an override appends one row
whose `originalPrice` is the inferred value; that value is the current
price when no prior observation exists, and equals
`max(prior maximum, current price)` whenever the prior maximum is nonzero
or the current price is nonnegative.  (In the remaining corner — prior
maximum exactly 0 and current price negative — the code stores the current
price instead of the maximum, as the counterexample shows.) -/
theorem claim_C3 (db : List Obs) (name url platform : String)
    (price threshold : ℚ) (now : ℕ) :
    save_price db name url platform price threshold none now =
      db ++ [⟨name, url, platform, price,
              savePriceInferredOriginal db name price, threshold, now⟩]
    ∧ (sqlMax (priorPrices db name) = none →
        savePriceInferredOriginal db name price = price)
    ∧ (∀ m, sqlMax (priorPrices db name) = some m → (m ≠ 0 ∨ 0 ≤ price) →
        savePriceInferredOriginal db name price = max m price) := by
  refine ⟨rfl, ?_, ?_⟩
  · intro h
    unfold savePriceInferredOriginal
    rw [h]
  · intro m hm hcase
    unfold savePriceInferredOriginal
    rw [hm]
    show (if m ≠ 0 ∧ m > price then m else price) = max m price
    by_cases hgt : m ≠ 0 ∧ m > price
    · rw [if_pos hgt]
      exact (max_eq_left hgt.2.le).symm
    · rw [if_neg hgt]
      rcases not_and_or.mp hgt with hz | hle
      · have hm0 : m = 0 := not_not.mp hz
        have hp : 0 ≤ price := hcase.resolve_left (by simp [hm0])
        rw [hm0]
        exact (max_eq_right hp).symm
      · exact (max_eq_right (not_lt.mp hle)).symm

/-- Claim C3, witness: prior maximum 100, current price 60 — the stored
`originalPrice` is `max 100 60 = 100`. -/
theorem claim_C3_witness :
    save_price dbMaxPrior "B" "u" "amazon" 60 50 none 2 =
      dbMaxPrior ++ [⟨"B", "u", "amazon", 60, 100, 50, 2⟩] := by
  have h := claim_C3 dbMaxPrior "B" "u" "amazon" 60 50 2
  have hm := h.2.2 100 rfl (Or.inr (by norm_num))
  rw [h.1, hm, max_eq_left (by norm_num : (60 : ℚ) ≤ 100)]

/-!  Claim C4.  -/

/-- Claim C4: with strictly increasing timestamps, the summary entry's
`previousPrice` is the price of the (N-1)th of the N recorded observations
when N >= 2, and null when N = 1. -/
theorem claim_C4 (db : List Obs) (n : String) (e : SummaryEntry)
    (hs : (nameHistory db n).Pairwise (fun a b => a.date < b.date))
    (he : summaryFor db n = some e) :
    (2 ≤ (nameHistory db n).length →
      e.previous_price =
        ((nameHistory db n)[(nameHistory db n).length - 2]?).map Obs.price)
    ∧ ((nameHistory db n).length = 1 → e.previous_price = none) := by
  obtain ⟨-, hprev, -, -⟩ := summaryFor_fields db n e hs he
  constructor
  · intro h2
    rw [hprev, List.getElem?_reverse (by simpa using (by omega : 1 < (nameHistory db n).length))]
    have h12 : (nameHistory db n).length - 1 - 1 = (nameHistory db n).length - 2 := by omega
    rw [h12]
  · intro h1
    rw [hprev, List.getElem?_eq_none (by simp [h1])]
    rfl

/-- The summary entry produced for `dbTwoObs` ("W": 100 at time 1, 90 at
time 2). -/
def summaryW : SummaryEntry :=
  ⟨"W", "u", "amazon", 90, 100, 50, some 100,
   some ((90 : ℚ) - 100), some (((90 : ℚ) - 100) / 100 * 100), 2⟩

/-- Claim C4, witness: for the two-observation history of "W" the summary's
`previousPrice` is the first (N-1 = 1st) observation's price, 100. -/
theorem claim_C4_witness : summaryW.previous_price = some 100 := by
  have h := (claim_C4 dbTwoObs "W" summaryW (by decide) rfl).1 (by decide)
  rw [h]
  decide

/-!  Claim C5.  -/

/-- Claim C5, counterexample: "Z" has two observations (prices 0 then 50),
so the claim demands `priceChange = 50 - 0`; the code's `if previous_price:`
truthiness guard instead yields null because the previous price is 0. -/
theorem claim_C5_counterexample :
    (nameHistory dbZeroPrev "Z").length = 2
    ∧ summaryFor dbZeroPrev "Z" =
        some ⟨"Z", "u", "amazon", 50, 50, 100, some 0, none, none, 2⟩
    ∧ (some (none : Option ℚ) = some (some ((50 : ℚ) - 0)) → False) :=
  ⟨rfl, rfl, fun h => by simp at h⟩

/-- Claim C5 (amended): with strictly increasing timestamps,
`priceChange = currentPrice - previousPrice` whenever the previous
observation exists and its price is nonzero; it is null when there is no
previous observation AND ALSO when the previous price is 0 (the code's
`if previous_price:` guard treats 0 like absent). -/
theorem claim_C5 (db : List Obs) (n : String) (e : SummaryEntry)
    (hs : (nameHistory db n).Pairwise (fun a b => a.date < b.date))
    (he : summaryFor db n = some e) :
    (∀ pObs cObs, 2 ≤ (nameHistory db n).length →
      (nameHistory db n)[(nameHistory db n).length - 2]? = some pObs →
      (nameHistory db n).getLast? = some cObs →
      (pObs.price ≠ 0 → e.price_change = some (cObs.price - pObs.price))
      ∧ (pObs.price = 0 → e.price_change = none))
    ∧ ((nameHistory db n).length = 1 → e.price_change = none) := by
  obtain ⟨hcur, hprev, hpc, -⟩ := summaryFor_fields db n e hs he
  constructor
  · intro pObs cObs h2 hp hc
    have hrev : (nameHistory db n).reverse[1]? = some pObs := by
      rw [List.getElem?_reverse (by simpa using (by omega : 1 < (nameHistory db n).length))]
      have h12 : (nameHistory db n).length - 1 - 1 = (nameHistory db n).length - 2 := by omega
      rw [h12]
      exact hp
    have hprev2 : e.previous_price = some pObs.price := by
      rw [hprev, hrev]
      rfl
    have hcur2 : e.current_price = cObs.price := by
      rw [hc] at hcur
      simpa using hcur.symm
    constructor
    · intro hne
      rw [hpc, hprev2]
      simp [hne, hcur2]
    · intro h0
      rw [hpc, hprev2]
      simp [h0]
  · intro h1
    have hnone : (nameHistory db n).reverse[1]? = none :=
      List.getElem?_eq_none (by simp [h1])
    rw [hpc, hprev, hnone]
    rfl

/-- Claim C5, witness: previous price 100 (nonzero), current 90 — the
summary's `priceChange` is `90 - 100`. -/
theorem claim_C5_witness : summaryW.price_change = some ((90 : ℚ) - 100) :=
  ((claim_C5 dbTwoObs "W" summaryW (by decide) rfl).1
    ⟨"W", "u", "amazon", 100, 100, 50, 1⟩ ⟨"W", "u", "amazon", 90, 100, 50, 2⟩
    (by decide) rfl rfl).1 (by norm_num)

/-!  Claim C6.  -/

/-- Claim C6: `priceChangePercent` is null when the previous observed price
is 0 (no division is attempted — the embedding's guard short-circuits
exactly as the Python `if previous_price:` does), and equals
`(current - previous) / previous * 100` when the previous price is
nonzero. -/
theorem claim_C6 (db : List Obs) (n : String) (e : SummaryEntry)
    (hs : (nameHistory db n).Pairwise (fun a b => a.date < b.date))
    (he : summaryFor db n = some e) :
    (∀ pObs, 2 ≤ (nameHistory db n).length →
      (nameHistory db n)[(nameHistory db n).length - 2]? = some pObs →
      pObs.price = 0 → e.price_change_percent = none)
    ∧ (∀ pObs cObs, 2 ≤ (nameHistory db n).length →
      (nameHistory db n)[(nameHistory db n).length - 2]? = some pObs →
      (nameHistory db n).getLast? = some cObs →
      pObs.price ≠ 0 →
      e.price_change_percent = some ((cObs.price - pObs.price) / pObs.price * 100)) := by
  obtain ⟨hcur, hprev, -, hpcp⟩ := summaryFor_fields db n e hs he
  have hrev : ∀ pObs, 2 ≤ (nameHistory db n).length →
      (nameHistory db n)[(nameHistory db n).length - 2]? = some pObs →
      e.previous_price = some pObs.price := by
    intro pObs h2 hp
    rw [hprev, List.getElem?_reverse (by simpa using (by omega : 1 < (nameHistory db n).length))]
    have h12 : (nameHistory db n).length - 1 - 1 = (nameHistory db n).length - 2 := by omega
    rw [h12, hp]
    rfl
  constructor
  · intro pObs h2 hp h0
    rw [hpcp, hrev pObs h2 hp]
    simp [h0]
  · intro pObs cObs h2 hp hc hne
    have hcur2 : e.current_price = cObs.price := by
      rw [hc] at hcur
      simpa using hcur.symm
    rw [hpcp, hrev pObs h2 hp]
    simp [hne, hcur2]

/-- Claim C6, witness: previous price 100, current 90 — the summary's
`priceChangePercent` is `(90 - 100) / 100 * 100`. -/
theorem claim_C6_witness :
    summaryW.price_change_percent = some (((90 : ℚ) - 100) / 100 * 100) :=
  (claim_C6 dbTwoObs "W" summaryW (by decide) rfl).2
    ⟨"W", "u", "amazon", 100, 100, 50, 1⟩ ⟨"W", "u", "amazon", 90, 100, 50, 2⟩
    (by decide) rfl rfl (by norm_num)

/-!  Claim C7.  -/

/-- Claim C7, counterexample: for the price pair (original -1, current -2)
the computed discount is -100, so the claimed invariant
`discountPercent >= 0` fails for negative original prices. -/
theorem claim_C7_counterexample :
    discountPercent (-1) (-2) = -100 ∧ (0 ≤ discountPercent (-1) (-2) → False) := by
  have h : discountPercent (-1) (-2) = -100 := by
    norm_num [discountPercent, round2, roundHalfEven]
  refine ⟨h, fun hc => ?_⟩
  rw [h] at hc
  norm_num at hc

/-- Claim C7 (amended): the discount is 0 whenever `current >= original`,
equals `round2((original - current) / original * 100)` whenever
`original > current` (and `original` is nonzero — at `original = 0` the
Python would raise), and is nonnegative whenever the original price is
positive.  For negative originals it can be negative, as the
counterexample shows. -/
theorem claim_C7 (o c : ℚ) :
    (o ≤ c → discountPercent o c = 0)
    ∧ (c < o → o ≠ 0 → discountPercent o c = round2 ((o - c) / o * 100))
    ∧ (0 < o → 0 ≤ discountPercent o c) := by
  refine ⟨?_, ?_, ?_⟩
  · intro h
    unfold discountPercent
    rw [if_neg (not_lt.mpr h)]
  · intro h _
    unfold discountPercent
    rw [if_pos h]
  · intro ho
    unfold discountPercent
    by_cases h : c < o
    · rw [if_pos h]
      apply round2_nonneg
      have hd : 0 < (o - c) / o := div_pos (by linarith) ho
      nlinarith
    · rw [if_neg h]

/-- Claim C7, witness: at (original 100, current 110) the discount is 0; at
(original 100, current 90) it follows the rounded formula and is
nonnegative. -/
theorem claim_C7_witness :
    discountPercent 100 110 = 0
    ∧ discountPercent 100 90 = round2 ((100 - 90) / 100 * 100)
    ∧ 0 ≤ discountPercent 100 90 :=
  ⟨(claim_C7 100 110).1 (by norm_num),
   (claim_C7 100 90).2.1 (by norm_num) (by norm_num),
   (claim_C7 100 90).2.2 (by norm_num)⟩

/-!  Claim C8.  -/

/-- Claim C8: every successful scrape is marked eligible (`send_email`)
exactly when `current < original` and `current <= threshold`; the result's
threshold is the product's. -/
theorem claim_C8 (aF fF : String → Option (ℚ × ℚ)) (p : Product) (info : ScrapeInfo)
    (he : scrape_product aF fF p = some info) :
    info.threshold = p.threshold
    ∧ (info.send_email = true ↔
        (info.current_price < info.original_price ∧ info.current_price ≤ p.threshold)) := by
  unfold scrape_product at he
  by_cases hA : strContainsSub p.url "amazon"
  · rw [if_pos hA] at he
    cases hm : aF p.url with
    | none => rw [hm] at he; simp at he
    | some co =>
      obtain ⟨c, o⟩ := co
      rw [hm] at he
      simp only [Option.some.injEq] at he
      subst he
      simp [mkScrapeInfo, decide_eq_true_iff]
  · rw [if_neg hA] at he
    by_cases hF : strContainsSub p.url "flipkart"
    · rw [if_pos hF] at he
      cases hm : fF p.url with
      | none => rw [hm] at he; simp at he
      | some co =>
        obtain ⟨c, o⟩ := co
        rw [hm] at he
        simp only [Option.some.injEq] at he
        subst he
        simp [mkScrapeInfo, decide_eq_true_iff]
    · rw [if_neg hF] at he
      simp only [Option.some.injEq] at he
      subst he
      simp [mkScrapeInfo, decide_eq_true_iff]

/-- A product/adapter pair for the C8 witness: current 70, original 80,
threshold 100 — both conditions hold, so `send_email` is true. -/
def prodW8 : Product := ⟨"W8", "https://amazon.example/w8", "amazon", 100⟩

/-- Adapter stub for `prodW8`. -/
def fetchW8 : String → Option (ℚ × ℚ) := fun _ => some (70, 80)

/-- Claim C8, witness: the eligibility equivalence applied to the concrete
scrape of `prodW8`. -/
theorem claim_C8_witness :
    (mkScrapeInfo prodW8 70 80).threshold = prodW8.threshold
    ∧ ((mkScrapeInfo prodW8 70 80).send_email = true ↔
        ((mkScrapeInfo prodW8 70 80).current_price < (mkScrapeInfo prodW8 70 80).original_price
         ∧ (mkScrapeInfo prodW8 70 80).current_price ≤ prodW8.threshold)) :=
  claim_C8 fetchW8 noFetch prodW8 (mkScrapeInfo prodW8 70 80) rfl

/-!  Claim C9.  -/

/-- Claim C9: in every run, exactly the successfully scraped products
produce PriceObservation writes, in product order — an adapter failure
contributes nothing and the loop continues (the fold is total, so the run
always completes); concretely, in the 3-product run where the adapter
fails on the second product, exactly the observations for P1 and P3 are
written. -/
theorem claim_C9 :
    (∀ (now : ℕ) (aF fF : String → Option (ℚ × ℚ)) (db0 : List Obs) (ps : List Product),
      (track_prices now aF fF db0 ps).db = db0 ++ ps.filterMap (dbContrib aF fF now))
    ∧ scrape_product amazonFetch9 flipkartFetch9 prodB9 = none
    ∧ (track_prices 0 amazonFetch9 flipkartFetch9 [] [prodA9, prodB9, prodC9]).db =
        [obsOf 0 prodA9 (mkScrapeInfo prodA9 80 100),
         obsOf 0 prodC9 (mkScrapeInfo prodC9 150 150)] :=
  ⟨track_prices_db, rfl, rfl⟩

/-!  Claim C10.  -/

/-- Claim C10: `fetch_products` is total (every failure path yields a skip
or the empty list, matching the per-row and outer exception handlers): a
missing catalog yields `[]`; a row whose cleaned threshold is empty, or
whose name or url is missing, is skipped; a surviving row's threshold is
the parsed value of the cleaned threshold string; and "Rs 1,299.50" cleans
to "1299.50", which parses as 1299.50. -/
theorem claim_C10 :
    fetch_products none = []
    ∧ (∀ (pre post : List CsvRow) (row : CsvRow),
        cleanThreshold (pyStrip (row.threshold.getD "")) = "" →
        fetch_products (some (pre ++ row :: post)) = fetch_products (some (pre ++ post)))
    ∧ (∀ (pre post : List CsvRow) (row : CsvRow),
        row.name.getD "" = "" ∨ row.url.getD "" = "" →
        fetch_products (some (pre ++ row :: post)) = fetch_products (some (pre ++ post)))
    ∧ (∀ (row : CsvRow) (p : Product), parseProductRow row = some p →
        parsePyFloat (cleanThreshold (pyStrip (row.threshold.getD ""))) = some p.threshold)
    ∧ cleanThreshold "Rs 1,299.50" = "1299.50"
    ∧ parsePyFloat "1299.50" = some (1299.5 : ℚ) := by
  refine ⟨rfl, ?_, ?_, ?_, rfl, ?_⟩
  · intro pre post row h
    have hrow : parseProductRow row = none := by
      unfold parseProductRow
      simp [h]
    simp [fetch_products, List.filterMap_append, List.filterMap_cons, hrow]
  · intro pre post row h
    have hrow : parseProductRow row = none := by
      unfold parseProductRow
      by_cases h1 : cleanThreshold (pyStrip (row.threshold.getD "")) = ""
      · simp [h1]
      · simp only [if_neg h1]
        cases hp : parsePyFloat (cleanThreshold (pyStrip (row.threshold.getD ""))) with
        | none => rfl
        | some t => simp [h]
    simp [fetch_products, List.filterMap_append, List.filterMap_cons, hrow]
  · intro row p hp
    unfold parseProductRow at hp
    by_cases h1 : cleanThreshold (pyStrip (row.threshold.getD "")) = ""
    · rw [if_pos h1] at hp
      exact absurd hp (by simp)
    · rw [if_neg h1] at hp
      cases hq : parsePyFloat (cleanThreshold (pyStrip (row.threshold.getD ""))) with
      | none => rw [hq] at hp; simp at hp
      | some t =>
        rw [hq] at hp
        by_cases h2 : row.name.getD "" = "" ∨ row.url.getD "" = ""
        · exact absurd hp (by simp [h2])
        · have hp2 : Product.mk (pyStrip (row.name.getD "")) (pyStrip (row.url.getD ""))
              (pyStrip (pyLower (row.platform.getD ""))) t = p := by
            simpa [h2] using hp
          subst hp2
          rfl
  · have h1 : parsePyFloat "1299.50" =
        some ((digitsToNat ['1', '2', '9', '9'] : ℚ) +
          (digitsToNat ['5', '0'] : ℚ) / (10 : ℚ) ^ (2 : ℕ)) := rfl
    have h2 : digitsToNat ['1', '2', '9', '9'] = 1299 := rfl
    have h3 : digitsToNat ['5', '0'] = 50 := rfl
    rw [h1, h2, h3]
    norm_num

/-- A catalog row whose threshold "N/A" cleans to the empty string. -/
def badRow : CsvRow := ⟨some "A", some "https://amazon.example/a", some "amazon", some "N/A"⟩

/-- Claim C10, witness: the skip rule applied to the concrete row `badRow`
alone in the catalog — it contributes no product. -/
theorem claim_C10_witness :
    fetch_products (some ([] ++ badRow :: [])) = fetch_products (some ([] ++ [])) :=
  claim_C10.2.1 [] [] badRow rfl
